import Mathlib

/-!
Verification of the release synchronization and query subsystem of
solc-switch (Go), shallowly embedded in Lean 4.

The embedding follows the source files:
  - helpers.go      : getCleanedVersionTag, validatePath
  - types.go        : Version, Asset, VersionInfo, GetVersionInfo
  - releases.go     : GetLocalReleases, GetCachedReleases, GetLatestRelease,
                      GetReleasesSimplified
  - syncer.go       : SyncReleases, SyncBinaries, SyncOne, downloadFile
  - distribution.go : GetDistributionForAsset

Stateful Go code is embedded as explicit state passing over SolcState
(the in-memory release mirror and the persisted releases.json file).
Network interaction is embedded as oracles (one response per page for
the listing endpoint, one response per URL for asset downloads), and
the number of network requests issued is tracked explicitly so that
claims about request counts can be stated.
-/

namespace SolcSwitch

/-- Embeds types.go Asset, restricted to the fields the sync and query
code reads: the asset name (matched against the platform token) and the
browser download URL. -/
structure Asset where
  name : String
  browserDownloadURL : String
deriving DecidableEq

/-- Embeds types.go Version, restricted to the fields the sync and query
code reads: TagName, Prerelease and Assets.  The remaining fields are
opaque metadata never inspected by the code under verification. -/
structure Version where
  tagName : String
  prerelease : Bool
  assets : List Asset
deriving DecidableEq

/-- Embeds types.go VersionInfo. -/
structure VersionInfo where
  tagName : String
  isLatest : Bool
  isPrerelease : Bool
deriving DecidableEq

/-- Embeds types.go GetVersionInfo: the projection of a Version to a
VersionInfo, given the tag of the latest release for comparison. -/
def getVersionInfo (v : Version) (latestVersionTag : String) : VersionInfo :=
  { tagName := v.tagName
    isLatest := v.tagName == latestVersionTag
    isPrerelease := v.prerelease }

/-- Embeds the Go call strings.ReplaceAll(versionTag, "v", "") from
helpers.go for its single-character pattern: replacing every occurrence
of the one-character pattern by the empty string removes every
occurrence of that character. -/
def replaceAllChar (old : Char) : List Char → List Char
  | [] => []
  | c :: cs => if c = old then replaceAllChar old cs else c :: replaceAllChar old cs

/-- Embeds helpers.go getCleanedVersionTag:
strings.ReplaceAll(versionTag, "v", ""). -/
def getCleanedVersionTag (versionTag : String) : String :=
  String.mk (replaceAllChar 'v' versionTag.data)

/-- The normalization the spec describes, written from its words for
comparison with the source embedding: strip one leading
version-prefix character (the letter v) and leave the rest unchanged. -/
def specNormalizeTag (t : String) : String :=
  match t.data with
  | 'v' :: rest => String.mk rest
  | _ => t

/-- leadsWith s p holds when p stands at the front of s
(character-list version of a string starting with a pattern). -/
def leadsWith : List Char → List Char → Bool
  | _, [] => true
  | [], _ :: _ => false
  | c :: cs, p :: ps => c == p && leadsWith cs ps

/-- Embeds Go strings.Contains(s, pat): pat occurs contiguously in s. -/
def hasSub : List Char → List Char → Bool
  | [], pat => leadsWith [] pat
  | c :: rest, pat => leadsWith (c :: rest) pat || hasSub rest pat

/-- Error kinds surfaced by the query path of releases.go.
fileNotFound embeds the os.ReadFile error on an absent releases.json;
noVersions embeds the errors.New((no versions found ...)) errors. -/
inductive QueryError
  | fileNotFound
  | noVersions
deriving DecidableEq

/-- The mutable state of a Solc manager instance that the sync and query
code touches: the in-memory mirror s.localReleases (none embeds a Go nil
slice, some vs a non-nil slice), and the persisted releases.json file
(none when the file is absent, some vs when it holds the JSON encoding
of vs; an array or null body both decode to their list of versions). -/
structure SolcState where
  localReleases : Option (List Version)
  releasesFile : Option (List Version)
deriving DecidableEq

/-- Embeds releases.go GetLocalReleases: read releases.json (error when
the file is absent), decode it, refresh the in-memory mirror and return
the decoded versions.  The function takes no network oracle: this code
path performs no remote call of any kind. -/
def getLocalReleases (st : SolcState) : Except QueryError (List Version) × SolcState :=
  match st.releasesFile with
  | none => (.error .fileNotFound, st)
  | some releases => (.ok releases, { st with localReleases := some releases })

/-- Embeds releases.go GetCachedReleases: the in-memory mirror, verbatim. -/
def getCachedReleases (st : SolcState) : Option (List Version) :=
  st.localReleases

/-- Embeds releases.go GetLatestRelease: use the mirror when it is not
nil, otherwise fall back to GetLocalReleases; error when the resulting
sequence is empty, otherwise return its first element. -/
def getLatestRelease (st : SolcState) : Except QueryError Version × SolcState :=
  match st.localReleases with
  | none =>
    match getLocalReleases st with
    | (.error e, st1) => (.error e, st1)
    | (.ok versions, st1) =>
      match versions with
      | [] => (.error .noVersions, st1)
      | v :: _ => (.ok v, st1)
  | some versions =>
    match versions with
    | [] => (.error .noVersions, st)
    | v :: _ => (.ok v, st)

/-- Embeds releases.go GetReleasesSimplified: force a GetLocalReleases
read, then map every version to its VersionInfo against the tag of the
first element.  The Go loop reads versions[0] only inside an iteration
of the range loop, so the empty list produces the empty result without
touching index 0; the embedding mirrors that with the outer match. -/
def getReleasesSimplified (st : SolcState) : Except QueryError (List VersionInfo) × SolcState :=
  match getLocalReleases st with
  | (.error e, st1) => (.error e, st1)
  | (.ok versions, st1) =>
    match versions with
    | [] => (.ok [], st1)
    | v0 :: rest => (.ok ((v0 :: rest).map (fun v => getVersionInfo v v0.tagName)), st1)

/-- Error kinds of SyncReleases in syncer.go: network embeds a transport
or body-read failure of a page request, decode a json.Unmarshal failure
on a page body. -/
inductive SyncError
  | network
  | decode
deriving DecidableEq

deriving instance DecidableEq for Except

/-- What one call of SyncReleases produces: the returned value, the
state after the call, and how many page requests went to the network. -/
structure SyncOutcome where
  result : Except SyncError (List Version)
  state : SolcState
  requests : Nat
deriving DecidableEq

/-- Embeds the pagination loop of SyncReleases (syncer.go lines 27-66):
fetch page after page starting at 1, abort on the first failed or
undecodable page, stop at the first empty page, accumulate the rest.
The remote oracle gives each page's decoded outcome; fuel bounds the
loop so the embedding is total (none means the fuel ran out before the
loop terminated).  The returned Nat counts the requests issued. -/
def syncPagesLoop (remote : Nat → Except SyncError (List Version)) :
    Nat → Nat → List Version → Nat → Option (Except SyncError (List Version) × Nat)
  | 0, _, _, _ => none
  | _fuel + 1, page, acc, reqs =>
    match remote page with
    | .error e => some (.error e, reqs + 1)
    | .ok [] => some (.ok acc, reqs + 1)
    | .ok (v :: vs) => syncPagesLoop remote _fuel (page + 1) (acc ++ (v :: vs)) (reqs + 1)

/-- Embeds syncer.go SyncReleases: run the pagination loop from page 1;
on any page failure return that error with the state untouched (the
file write and the mirror update stand after the loop); on success
write the whole accumulated sequence to releases.json and set the
mirror to it (a Go nil slice, hence none, when no page contributed). -/
def syncReleases (st : SolcState) (remote : Nat → Except SyncError (List Version))
    (fuel : Nat) : Option SyncOutcome :=
  match syncPagesLoop remote fuel 1 [] 0 with
  | none => none
  | some (.error e, reqs) => some { result := .error e, state := st, requests := reqs }
  | some (.ok allVersions, reqs) =>
    some { result := .ok allVersions
           state := { localReleases := match allVersions with
                        | [] => none
                        | v :: vs => some (v :: vs)
                      releasesFile := some allVersions }
           requests := reqs }

/-- Embeds the filter of the SyncBinaries loop (syncer.go lines 97-100):
a release enters the download round when the limit is empty or the
cleaned release tag equals the limit verbatim. -/
def passesVersionFilter (limitVersion : String) (v : Version) : Bool :=
  !(limitVersion != "" && getCleanedVersionTag v.tagName != limitVersion)

/-- The releases SyncBinaries considers under a given limitVersion. -/
def consideredReleases (versions : List Version) (limitVersion : String) : List Version :=
  versions.filter (fun v => passesVersionFilter limitVersion v)

/-- The limit argument SyncOne hands to SyncBinaries (syncer.go line
235): the raw TagName of the requested version, not cleaned. -/
def syncOneLimit (version : Version) : String :=
  version.tagName

/-- Embeds the asset scan of SyncBinaries: strings.Contains of the asset
name against the platform distribution token. -/
def assetMatches (distribution : String) (a : Asset) : Bool :=
  hasSub a.name.data distribution.data

/-- Embeds the destination filename of SyncBinaries (syncer.go lines
105-108): releasesPath/solc-versionTag, with .exe appended for the
Windows distribution token. -/
def destFilename (releasesPath distribution versionTag : String) : String :=
  releasesPath ++ "/solc-" ++ versionTag ++
    (if distribution == "solc-windows" then ".exe" else "")

/-- One dispatched download unit of SyncBinaries: the cleaned version
tag, the matched asset, and the destination path. -/
structure DownloadTask where
  versionTag : String
  asset : Asset
  dest : String
deriving DecidableEq

/-- What the body of the SyncBinaries loop does for one release
(syncer.go lines 96-154), up to dispatching the goroutine: skip it when
the version filter rejects it; scan its assets for the first one whose
name contains the distribution token (none found means the release is
skipped, not an error); skip it when the destination file already
exists on disk; otherwise emit a download task. -/
def planOne (releasesPath distribution : String) (fileOnDisk : String → Bool)
    (limitVersion : String) (v : Version) : Option DownloadTask :=
  if passesVersionFilter limitVersion v then
    match v.assets.find? (fun a => assetMatches distribution a) with
    | none => none
    | some a =>
      let filename := destFilename releasesPath distribution (getCleanedVersionTag v.tagName)
      if fileOnDisk filename then none
      else some { versionTag := getCleanedVersionTag v.tagName, asset := a, dest := filename }
  else none

/-- The download tasks one SyncBinaries round dispatches. -/
def planDownloads (releasesPath distribution : String) (fileOnDisk : String → Bool)
    (versions : List Version) (limitVersion : String) : List DownloadTask :=
  versions.filterMap (fun v => planOne releasesPath distribution fileOnDisk limitVersion v)

/-- Error kinds of downloadFile in syncer.go: network embeds a transport
failure of the GET, badStatus carries the non-200 response status of
the (failed to download file) error. -/
inductive DownloadError
  | network
  | badStatus (status : Nat)
deriving DecidableEq

/-- A decoded HTTP response to an asset GET. -/
structure HttpResponse where
  status : Nat
  body : List UInt8
deriving DecidableEq

/-- A file as downloadFile leaves it on disk: path, contents, and the
permission bits set by os.Chmod. -/
structure WrittenFile where
  path : String
  contents : List UInt8
  mode : Nat
deriving DecidableEq

/-- Embeds syncer.go downloadFile, lines 250-292: GET the URL (the
response oracle stands for client.Do; its error embeds a transport
failure); any response whose StatusCode differs from http.StatusOK
(exactly 200) is an error carrying that status; otherwise the body is
copied to the destination file, which os.Chmod then sets to mode 0o777. -/
def downloadFile (dest : String) (response : Except Unit HttpResponse) :
    Except DownloadError WrittenFile :=
  match response with
  | .error _ => .error .network
  | .ok r =>
    if r.status != 200 then .error (.badStatus r.status)
    else .ok { path := dest, contents := r.body, mode := 0o777 }

/-- Errors a download unit of SyncBinaries can push on the error
channel: the (context cancelled) error, or a wrapped downloadFile
error. -/
inductive BinError
  | cancelled
  | download (e : DownloadError)
deriving DecidableEq

/-- Embeds the goroutine body of SyncBinaries (syncer.go lines 130-149):
the select observes the cancellation signal first; when it is already
set the unit reports the cancellation error and issues no request and
writes no file; otherwise it runs downloadFile, one network request.
The Nat counts the requests the unit issued. -/
def runTask (cancelled : Bool) (respond : String → Except Unit HttpResponse)
    (t : DownloadTask) : Except BinError WrittenFile × Nat :=
  if cancelled then (.error .cancelled, 0)
  else
    match downloadFile t.dest (respond t.asset.browserDownloadURL) with
    | .error e => (.error (.download e), 1)
    | .ok f => (.ok f, 1)

/-- The error a finished unit contributed to the error channel, if any. -/
def resultError : Except BinError WrittenFile × Nat → Option BinError
  | (.error e, _) => some e
  | (.ok _, _) => none

/-- The file a finished unit created, if any. -/
def resultFile : Except BinError WrittenFile × Nat → Option WrittenFile
  | (.ok f, _) => some f
  | (.error _, _) => none

/-- What one SyncBinaries call produces: the single surfaced error (the
first one observed on the error channel, none when no unit failed), the
total number of network requests, and the files created on disk. -/
structure BinariesOutcome where
  firstError : Option BinError
  requests : Nat
  created : List WrittenFile
deriving DecidableEq

/-- Embeds syncer.go SyncBinaries: plan the download tasks, run each
unit against the cancellation flag and the response oracle, wait for
all of them, and surface the first observed error (the completion order
of the units is not determined; the embedding reads the channel in plan
order, which the claims under verification do not distinguish). -/
def syncBinaries (releasesPath distribution : String) (fileOnDisk : String → Bool)
    (cancelled : Bool) (respond : String → Except Unit HttpResponse)
    (versions : List Version) (limitVersion : String) : BinariesOutcome :=
  let tasks := planDownloads releasesPath distribution fileOnDisk versions limitVersion
  let results := tasks.map (fun t => runTask cancelled respond t)
  { firstError := (results.filterMap resultError).head?
    requests := (results.map (fun r => r.2)).sum
    created := results.filterMap resultFile }

/-- A concrete asset for witnesses and counterexamples: the static
Linux build of release v0.8.26. -/
def assetA : Asset :=
  { name := "solc-static-linux-v0.8.26", browserDownloadURL := "https://example.org/a" }

/-- A concrete release with a v-prefixed tag, as the GitHub API returns
them, carrying one Linux asset. -/
def vA : Version :=
  { tagName := "v0.8.26", prerelease := false, assets := [assetA] }

/-- A second concrete release, distinct from vA. -/
def vB : Version :=
  { tagName := "v0.8.25", prerelease := false, assets := [] }

/-- A concrete remote listing: page 1 holds release vA, every further
page is empty. -/
def remoteA : Nat → Except SyncError (List Version) :=
  fun page => if page = 1 then .ok [vA] else .ok []

/-- A concrete remote whose every page fails with a transport error. -/
def remoteFail : Nat → Except SyncError (List Version) :=
  fun _ => .error .network

end SolcSwitch

namespace SolcSwitch

lemma replaceAllChar_eq_filter (old : Char) (l : List Char) :
    replaceAllChar old l = l.filter (fun c => c != old) := by
  induction l with
  | nil => rfl
  | cons c cs ih =>
    by_cases h : c = old
    · simp [replaceAllChar, h, List.filter, ih]
    · have hb : (c != old) = true := by simp [h]
      simp [replaceAllChar, h, List.filter, ih, hb]

/-- C5 counterexample: the source normalization does not strip only a
leading v.  On the tag dev (no leading v) the claim says the tag is
unchanged, but getCleanedVersionTag removes the trailing v as well. -/
theorem getCleanedVersionTag_not_leading_only :
    getCleanedVersionTag "dev" = "de" ∧ specNormalizeTag "dev" = "dev" ∧
      getCleanedVersionTag "dev" ≠ specNormalizeTag "dev" := by
  refine ⟨rfl, rfl, ?_⟩
  decide

/-- C5 (amended): getCleanedVersionTag removes every occurrence of the
character v anywhere in the tag, keeping all other characters in their
order; consequently no v remains in its output and the operation is
idempotent. -/
theorem getCleanedVersionTag_removes_all_v (t : String) :
    (getCleanedVersionTag t).data = t.data.filter (fun c => c != 'v') ∧
      'v' ∉ (getCleanedVersionTag t).data ∧
      getCleanedVersionTag (getCleanedVersionTag t) = getCleanedVersionTag t := by
  refine ⟨by simp [getCleanedVersionTag, replaceAllChar_eq_filter], ?_, ?_⟩
  · intro hmem
    rw [getCleanedVersionTag] at hmem
    simp only [String.data] at hmem
    rw [replaceAllChar_eq_filter] at hmem
    have := List.of_mem_filter hmem
    simp at this
  · rw [getCleanedVersionTag, getCleanedVersionTag]
    simp only [String.data]
    rw [replaceAllChar_eq_filter, replaceAllChar_eq_filter, List.filter_filter]
    congr 1
    apply List.filter_congr
    intro c _
    by_cases h : c = 'v' <;> simp [h]

/-- C2 counterexample: with the mirror unset and releases.json absent,
GetLocalReleases surfaces the absence as an error and leaves the state
untouched, and GetLatestRelease falling back to it propagates the same
error; no sync of any kind is performed (the query path has no access
to the network in the first place). -/
theorem getLocalReleases_missing_file_cex :
    getLocalReleases { localReleases := none, releasesFile := none } =
      (.error .fileNotFound, { localReleases := none, releasesFile := none }) ∧
    getLatestRelease { localReleases := none, releasesFile := none } =
      (.error .fileNotFound, { localReleases := none, releasesFile := none }) :=
  ⟨rfl, rfl⟩

/-- C2 (amended): when the local cache file is absent, GetLocalReleases
returns a file-not-found error with the state unchanged, and
GetLatestRelease with an unset mirror propagates that error; neither
triggers an implicit sync. -/
theorem getLocalReleases_missing_file_error (st : SolcState) (h : st.releasesFile = none) :
    getLocalReleases st = (.error .fileNotFound, st) ∧
      (st.localReleases = none → getLatestRelease st = (.error .fileNotFound, st)) := by
  obtain ⟨m, f⟩ := st
  have hf : f = none := h
  subst hf
  refine ⟨rfl, ?_⟩
  intro hm
  have hm2 : m = none := hm
  subst hm2
  rfl

/-- C2 witness: the amended theorem applied to the empty state. -/
theorem getLocalReleases_missing_file_error_witness :
    getLocalReleases { localReleases := some [vA], releasesFile := none } =
      (.error .fileNotFound, { localReleases := some [vA], releasesFile := none }) :=
  (getLocalReleases_missing_file_error
    { localReleases := some [vA], releasesFile := none } rfl).1

/-- C3: SyncOne hands SyncBinaries the raw TagName of the requested
version as the limit, but the loop compares it against the cleaned tag
of each release, so for a v-prefixed tag (as the GitHub API returns
them) no release passes the filter and nothing is downloaded, although
the normalized tag of the release equals the normalized tag of the
requested version.  The round with the normalized limit would select
exactly that release. -/
theorem syncOne_filter_selects_nothing :
    consideredReleases [vA] (syncOneLimit vA) = [] ∧
    consideredReleases [vA] (getCleanedVersionTag vA.tagName) = [vA] ∧
    planDownloads "releases" "solc-static-linux" (fun _ => false) [vA] (syncOneLimit vA) = [] := by
  refine ⟨by decide, by decide, by decide⟩

/-- C4 counterexample: the 204 status lies in the 2xx class, yet
downloadFile rejects it with an error carrying that status, because the
code compares the status against http.StatusOK, exactly 200. -/
theorem downloadFile_2xx_not_ok :
    downloadFile "f" (.ok { status := 204, body := [] }) = .error (.badStatus 204) ∧
      200 ≤ 204 ∧ 204 < 300 :=
  ⟨rfl, by decide, by decide⟩

/-- C4 (amended): a download succeeds exactly when the response status
is exactly 200; any other status, the other 2xx statuses among them,
yields an error carrying that status; on 200 the body is written to the
destination file, whose mode is set to 0o777 (executable); a transport
failure yields a network error. -/
theorem downloadFile_requires_exactly_200 (dest : String) (r : HttpResponse) :
    (downloadFile dest (.ok r) =
        .ok { path := dest, contents := r.body, mode := 0o777 } ↔ r.status = 200) ∧
    (r.status ≠ 200 → downloadFile dest (.ok r) = .error (.badStatus r.status)) ∧
    downloadFile dest (.error ()) = .error .network := by
  by_cases h : r.status = 200 <;> simp [downloadFile, h]

/-- C4 witness: the amended theorem applied to a 404 response. -/
theorem downloadFile_requires_exactly_200_witness :
    downloadFile "f" (.ok { status := 404, body := [] }) = .error (.badStatus 404) :=
  (downloadFile_requires_exactly_200 "f" { status := 404, body := [] }).2.1 (by decide)

/-- C6: GetLatestRelease reads the mirror when it is set, otherwise the
persisted cache; on the authoritative sequence it returns the error for
the empty list and the element at index 0 otherwise, with no partial
access to an empty list anywhere. -/
theorem getLatestRelease_first_of_authoritative (st : SolcState) (rs : List Version)
    (h : st.localReleases = some rs ∨ (st.localReleases = none ∧ st.releasesFile = some rs)) :
    (getLatestRelease st).1 =
      match rs with
      | [] => .error .noVersions
      | v :: _ => .ok v := by
  obtain ⟨m, f⟩ := st
  rcases h with h | ⟨h1, h2⟩
  · have hm : m = some rs := h
    subst hm
    cases rs <;> rfl
  · have hm : m = none := h1
    have hf : f = some rs := h2
    subst hm
    subst hf
    cases rs <;> rfl

/-- C6 witness: the theorem applied to a state with an unset mirror and
a one-element persisted cache. -/
theorem getLatestRelease_first_witness :
    (getLatestRelease { localReleases := none, releasesFile := some [vA] }).1 = .ok vA :=
  getLatestRelease_first_of_authoritative
    { localReleases := none, releasesFile := some [vA] } [vA] (Or.inr ⟨rfl, rfl⟩)

/-- C10: on a persisted cache holding the zero-length release array,
GetReleasesSimplified returns the empty result and no error; the
first-element access of the latest-tag comparison sits inside the loop
body and is never evaluated. -/
theorem getReleasesSimplified_empty_cache (st : SolcState) (h : st.releasesFile = some []) :
    getReleasesSimplified st =
      (.ok [], { localReleases := some [], releasesFile := some [] }) := by
  obtain ⟨m, f⟩ := st
  have hf : f = some [] := h
  subst hf
  rfl

/-- C10 witness: the theorem applied to the state holding an empty
persisted release array. -/
theorem getReleasesSimplified_empty_cache_witness :
    getReleasesSimplified { localReleases := none, releasesFile := some [] } =
      (.ok [], { localReleases := some [], releasesFile := some [] }) :=
  getReleasesSimplified_empty_cache { localReleases := none, releasesFile := some [] } rfl

lemma syncPagesLoop_requests_gt (remote : Nat → Except SyncError (List Version)) :
    ∀ fuel page acc reqs r n,
      syncPagesLoop remote fuel page acc reqs = some (r, n) → reqs < n := by
  intro fuel
  induction fuel with
  | zero => intro page acc reqs r n h; cases h
  | succ k ih =>
    intro page acc reqs r n h
    rw [syncPagesLoop] at h
    cases hr : remote page with
    | error e =>
      rw [hr] at h
      cases h
      exact Nat.lt_succ_self reqs
    | ok vs =>
      cases vs with
      | nil =>
        rw [hr] at h
        cases h
        exact Nat.lt_succ_self reqs
      | cons v l =>
        rw [hr] at h
        exact Nat.lt_trans (Nat.lt_succ_self reqs) (ih _ _ _ _ _ h)

/-- C1 counterexample: with the in-memory cache freshly synchronized to
the sequence holding vB, an immediately following SyncReleases call
(elapsed time zero, hence within any throttle interval) still issues
two page requests and replaces the cache with what the remote returns
now, here the distinct sequence holding vA. -/
theorem syncReleases_ignores_cache_cex :
    syncReleases { localReleases := some [vB], releasesFile := some [vB] } remoteA 3 =
      some { result := .ok [vA],
             state := { localReleases := some [vA], releasesFile := some [vA] },
             requests := 2 } ∧
    (2 : Nat) ≠ 0 ∧ vA ≠ vB :=
  ⟨rfl, by decide, by decide⟩

/-- C1 (amended): SyncReleases has no throttle.  Whatever the in-memory
cache or the persisted file hold, a call pages through the remote from
page 1, so its returned value and its request count are independent of
the current state, and every completed call issues at least one network
request. -/
theorem syncReleases_no_throttle (m1 f1 m2 f2 : Option (List Version))
    (remote : Nat → Except SyncError (List Version)) (fuel : Nat) :
    ((syncReleases { localReleases := m1, releasesFile := f1 } remote fuel).map
        (fun o => (o.result, o.requests))) =
      ((syncReleases { localReleases := m2, releasesFile := f2 } remote fuel).map
        (fun o => (o.result, o.requests))) ∧
    (∀ out, syncReleases { localReleases := m1, releasesFile := f1 } remote fuel = some out →
      1 ≤ out.requests) := by
  constructor
  · cases hLoop : syncPagesLoop remote fuel 1 [] 0 with
    | none => simp [syncReleases, hLoop]
    | some p =>
      obtain ⟨r, n⟩ := p
      cases r <;> simp [syncReleases, hLoop]
  · intro out hout
    rw [syncReleases] at hout
    cases hLoop : syncPagesLoop remote fuel 1 [] 0 with
    | none => rw [hLoop] at hout; cases hout
    | some p =>
      obtain ⟨r, n⟩ := p
      have hn : 0 < n := syncPagesLoop_requests_gt remote fuel 1 [] 0 r n hLoop
      cases r with
      | error e => rw [hLoop] at hout; cases hout; exact hn
      | ok allVersions => rw [hLoop] at hout; cases hout; exact hn

/-- C1 witness: the amended theorem applied to a freshly synchronized
state and the concrete remote remoteA, whose completed call issued two
requests. -/
theorem syncReleases_no_throttle_witness :
    1 ≤ ({ result := .ok [vA],
           state := { localReleases := some [vA], releasesFile := some [vA] },
           requests := 2 } : SyncOutcome).requests :=
  (syncReleases_no_throttle (some [vB]) (some [vB]) none none remoteA 3).2 _ rfl

/-- C8: when any page of a SyncReleases call fails on transport or on
decoding, the call returns that error and leaves the mirror and the
persisted file exactly as they were, with no partial accumulation; the
file write and the mirror update happen only on a call whose every page
succeeded, and then install the full accumulated sequence. -/
theorem syncReleases_error_state_unchanged (st : SolcState)
    (remote : Nat → Except SyncError (List Version)) (fuel : Nat) (out : SyncOutcome)
    (hout : syncReleases st remote fuel = some out) :
    (∀ e, out.result = .error e → out.state = st) ∧
    (∀ vs, out.result = .ok vs →
      out.state = { localReleases := match vs with
                      | [] => none
                      | v :: l => some (v :: l)
                    releasesFile := some vs }) := by
  rw [syncReleases] at hout
  cases hLoop : syncPagesLoop remote fuel 1 [] 0 with
  | none => rw [hLoop] at hout; cases hout
  | some p =>
    obtain ⟨r, n⟩ := p
    cases r with
    | error e =>
      rw [hLoop] at hout
      cases hout
      constructor
      · intro e2 _
        rfl
      · intro vs hvs
        exact Except.noConfusion hvs
    | ok allVersions =>
      rw [hLoop] at hout
      cases hout
      constructor
      · intro e2 he2
        exact Except.noConfusion he2
      · intro vs hvs
        have hv : allVersions = vs := Except.ok.inj hvs
        subst hv
        rfl

/-- C8 witness: the theorem applied to a state and a remote whose first
page fails with a transport error; the state comes back unchanged. -/
theorem syncReleases_error_state_unchanged_witness :
    syncReleases { localReleases := some [vB], releasesFile := some [vB] } remoteFail 3 =
      some { result := .error .network,
             state := { localReleases := some [vB], releasesFile := some [vB] },
             requests := 1 } ∧
    ({ result := .error .network,
       state := { localReleases := some [vB], releasesFile := some [vB] },
       requests := 1 } : SyncOutcome).state =
      { localReleases := some [vB], releasesFile := some [vB] } :=
  ⟨rfl,
    (syncReleases_error_state_unchanged
      { localReleases := some [vB], releasesFile := some [vB] } remoteFail 3 _ rfl).1
      .network rfl⟩

lemma planOne_none_of_fileOnDisk (releasesPath distribution : String)
    (fileOnDisk : String → Bool) (limitVersion : String) (v : Version)
    (h : fileOnDisk (destFilename releasesPath distribution (getCleanedVersionTag v.tagName)) =
      true) :
    planOne releasesPath distribution fileOnDisk limitVersion v = none := by
  rw [planOne]
  by_cases hp : passesVersionFilter limitVersion v
  · simp only [hp, if_true]
    cases hfind : v.assets.find? (fun a => assetMatches distribution a) with
    | none => rfl
    | some a => simp [h]
  · simp [hp]

lemma planDownloads_nil_of_fileOnDisk (releasesPath distribution : String)
    (fileOnDisk : String → Bool) (limitVersion : String) :
    ∀ versions : List Version,
      (∀ v ∈ versions,
        fileOnDisk (destFilename releasesPath distribution (getCleanedVersionTag v.tagName)) =
          true) →
      planDownloads releasesPath distribution fileOnDisk versions limitVersion = [] := by
  intro versions
  induction versions with
  | nil => intro _; rfl
  | cons v vs ih =>
    intro h
    rw [planDownloads, List.filterMap_cons,
      planOne_none_of_fileOnDisk releasesPath distribution fileOnDisk limitVersion v
        (h v (List.mem_cons_self v vs))]
    exact ih (fun w hw => h w (List.mem_cons_of_mem v hw))

/-- C7: SyncBinaries skips every release whose destination file already
sits on disk, so a round over a fully downloaded release set dispatches
no download task, issues zero network requests, creates no file and
surfaces no error. -/
theorem syncBinaries_idempotent (releasesPath distribution : String)
    (fileOnDisk : String → Bool) (cancelled : Bool)
    (respond : String → Except Unit HttpResponse)
    (versions : List Version) (limitVersion : String)
    (h : ∀ v ∈ versions,
      fileOnDisk (destFilename releasesPath distribution (getCleanedVersionTag v.tagName)) =
        true) :
    planDownloads releasesPath distribution fileOnDisk versions limitVersion = [] ∧
    syncBinaries releasesPath distribution fileOnDisk cancelled respond versions limitVersion =
      { firstError := none, requests := 0, created := [] } := by
  have hplan :=
    planDownloads_nil_of_fileOnDisk releasesPath distribution fileOnDisk limitVersion versions h
  exact ⟨hplan, by simp [syncBinaries, hplan]⟩

/-- C7 witness: the theorem applied to a one-release set whose binary is
already on disk. -/
theorem syncBinaries_idempotent_witness :
    syncBinaries "r" "solc-static-linux" (fun _ => true) false (fun _ => .error ()) [vA] "" =
      { firstError := none, requests := 0, created := [] } :=
  (syncBinaries_idempotent "r" "solc-static-linux" (fun _ => true) false (fun _ => .error ())
    [vA] "" (fun _ _ => rfl)).2

lemma syncBinaries_cancelled_core (respond : String → Except Unit HttpResponse) :
    ∀ ts : List DownloadTask,
      ((ts.map (fun t => runTask true respond t)).filterMap resultError).head? =
        (match ts with | [] => none | _ :: _ => some .cancelled) ∧
      ((ts.map (fun t => runTask true respond t)).map (fun r => r.2)).sum = 0 ∧
      (ts.map (fun t => runTask true respond t)).filterMap resultFile = [] := by
  intro ts
  induction ts with
  | nil => exact ⟨rfl, rfl, rfl⟩
  | cons t ts ih =>
    refine ⟨?_, ?_, ?_⟩
    · simp [runTask, resultError]
    · rw [List.map_cons, List.map_cons, List.sum_cons]
      have hh : (runTask true respond t).2 = 0 := rfl
      rw [hh, Nat.zero_add]
      exact ih.2.1
    · rw [List.map_cons, List.filterMap_cons]
      have hh : resultFile (runTask true respond t) = none := rfl
      rw [hh]
      exact ih.2.2

/-- C9: with the cancellation signal already set, every download unit
reports the cancellation error and issues no network request and writes
no file; a SyncBinaries round under a set signal therefore issues zero
requests, creates zero files, and surfaces the cancellation error
whenever it had at least one download to dispatch. -/
theorem syncBinaries_cancelled (releasesPath distribution : String)
    (fileOnDisk : String → Bool) (respond : String → Except Unit HttpResponse)
    (versions : List Version) (limitVersion : String) :
    (∀ t : DownloadTask, runTask true respond t = (.error .cancelled, 0)) ∧
    (syncBinaries releasesPath distribution fileOnDisk true respond versions
        limitVersion).requests = 0 ∧
    (syncBinaries releasesPath distribution fileOnDisk true respond versions
        limitVersion).created = [] ∧
    (planDownloads releasesPath distribution fileOnDisk versions limitVersion ≠ [] →
      (syncBinaries releasesPath distribution fileOnDisk true respond versions
          limitVersion).firstError = some .cancelled) := by
  obtain ⟨h1, h2, h3⟩ :=
    syncBinaries_cancelled_core respond
      (planDownloads releasesPath distribution fileOnDisk versions limitVersion)
  refine ⟨fun t => rfl, ?_, ?_, ?_⟩
  · simpa [syncBinaries] using h2
  · simpa [syncBinaries] using h3
  · intro hne
    cases hplan : planDownloads releasesPath distribution fileOnDisk versions limitVersion with
    | nil => exact absurd hplan hne
    | cons a l =>
      rw [hplan] at h1
      simpa [syncBinaries, hplan] using h1

/-- C9 witness: the theorem applied to a round with one pending
download; the round surfaces the cancellation error. -/
theorem syncBinaries_cancelled_witness :
    planDownloads "r" "solc-static-linux" (fun _ => false) [vA] "" ≠ [] ∧
    (syncBinaries "r" "solc-static-linux" (fun _ => false) true (fun _ => .error ())
        [vA] "").firstError = some .cancelled :=
  ⟨by decide,
    (syncBinaries_cancelled "r" "solc-static-linux" (fun _ => false) (fun _ => .error ())
      [vA] "").2.2.2 (by decide)⟩

end SolcSwitch
